import Mathlib

/-!
Shallow embedding of the RANK script codec and aggregation model of
`rank-lib` (src/index.ts and src/unnamed/part_000), together with proofs
about the codec's registries, encoders and decoders.

Buffers are modelled as `List Nat` (each element a byte value), JS strings
as `List Char` (Unicode scalar values), and fallible operations (JS throws)
as `Except String`.
-/

/-- The platform labels registered in the codec
(`ScriptChunkPlatformUTF8 = 'twitter'` in the source). -/
inductive Platform
  | twitter
deriving DecidableEq

/-- The sentiment labels
(`ScriptChunkSentimentUTF8 = 'positive' | 'negative'` in the source). -/
inductive Sentiment
  | positive
  | negative
deriving DecidableEq

/-- `SCRIPT_CHUNK_LOKAD`: 4-byte lokad code 0x52414E4B ↦ "RANK". -/
def SCRIPT_CHUNK_LOKAD : List (Nat × String) := [(0x52414E4B, "RANK")]

/-- `SCRIPT_CHUNK_SENTIMENT`: 1-byte code 0x51 ↦ positive (OP_1 | OP_TRUE),
0x00 ↦ negative (OP_0 | OP_FALSE). -/
def SCRIPT_CHUNK_SENTIMENT : List (Nat × Sentiment) :=
  [(0x51, Sentiment.positive), (0x00, Sentiment.negative)]

/-- `SCRIPT_CHUNK_PLATFORM`: 1-byte code 0x01 ↦ twitter. -/
def SCRIPT_CHUNK_PLATFORM : List (Nat × Platform) := [(0x01, Platform.twitter)]

/-- `RANK_SCRIPT_REQUIRED_LENGTH = 10` (length in bytes of the required
RANK script chunks). -/
def RANK_SCRIPT_REQUIRED_LENGTH : Nat := 10

/-- One entry of the `ScriptChunk` table: byte offset in the output script
(absent for optional chunks) and byte length (`none` models the source's
`null`, i.e. platform/variable-determined). -/
structure ScriptChunkDef where
  offset : Option Nat
  len : Option Nat
deriving DecidableEq

/-- The field names of `RANK_SCRIPT_CHUNKS_REQUIRED` (lokad, sentiment,
platform, profileId). -/
structure RequiredChunks where
  lokad : ScriptChunkDef
  sentiment : ScriptChunkDef
  platform : ScriptChunkDef
  profileId : ScriptChunkDef
deriving DecidableEq

/-- `RANK_SCRIPT_CHUNKS_REQUIRED` from src/index.ts: the fixed offsets and
lengths of the required chunks.  The chunk maps are the registry lists
above (`SCRIPT_CHUNK_LOKAD`, `SCRIPT_CHUNK_SENTIMENT`,
`SCRIPT_CHUNK_PLATFORM`). -/
def RANK_SCRIPT_CHUNKS_REQUIRED : RequiredChunks :=
  { lokad := { offset := some 2, len := some 4 }
    sentiment := { offset := some 6, len := some 1 }
    platform := { offset := some 8, len := some 1 }
    profileId := { offset := some 10, len := none } }

/-- Tags of `PlatformParameters.postId.type`: 'BigInt' | 'Number' | 'String'. -/
inductive PostIdType
  | bigIntTag
  | numberTag
  | stringTag
deriving DecidableEq

/-- `PlatformParameters.postId`: byte width, validating regex (modelled as
a decidable predicate on the character list) and the type tag selecting
the byte-encoding rule. -/
structure PostIdParams where
  len : Nat
  regexMatch : List Char → Bool
  ptype : PostIdType

/-- `PlatformParameters.profileId`. -/
structure ProfileIdParams where
  len : Nat
deriving DecidableEq

/-- `PlatformParameters` per-platform record. -/
structure PlatformParameters where
  profileId : ProfileIdParams
  postId : PostIdParams

/-- The `PLATFORMS` table from src/index.ts: twitter has a 16-byte
profileId field and a postId of type BigInt, 8 bytes, validated by
`/^[0-9]+$/` (modelled as: nonempty and all decimal digits). -/
def PLATFORMS : Platform → PlatformParameters
  | Platform.twitter =>
    { profileId := { len := 16 }
      postId :=
        { len := 8
          regexMatch := fun s => !s.isEmpty && s.all Char.isDigit
          ptype := PostIdType.bigIntTag } }

/-- Models `Buffer.prototype.readUint8()` at index 0: the first byte, or
`none` where Node would throw `ERR_OUT_OF_RANGE` (empty buffer). -/
def readUint8 (buf : List Nat) : Option Nat := buf.head?

/-- `toPlatformUTF8` from the source: read the first byte of the buffer and
look it up in `SCRIPT_CHUNK_PLATFORM`; `undefined` (here `none`) when the
byte has no registered mapping. -/
def toPlatformUTF8 (platformBuf : List Nat) : Option Platform :=
  (readUint8 platformBuf).bind fun b => SCRIPT_CHUNK_PLATFORM.lookup b

/-- `toPlatformBuf` from the source: iterate the platform registry entries
in order and return a 1-byte buffer of the first code whose label matches;
`undefined` (here `none`) if no entry matches. -/
def toPlatformBuf (platform : Platform) : Option (List Nat) :=
  (SCRIPT_CHUNK_PLATFORM.find? fun e => e.2 = platform).map fun e => [e.1]

/-- `toSentimentUTF8` from the source: read the first byte and look it up
in `SCRIPT_CHUNK_SENTIMENT`. -/
def toSentimentUTF8 (sentimentBuf : List Nat) : Option Sentiment :=
  (readUint8 sentimentBuf).bind fun b => SCRIPT_CHUNK_SENTIMENT.lookup b

/-- `toSentimentOpCode` from the source: returns the opcode mnemonic
string, 'OP_1' for positive and 'OP_0' for negative. -/
def toSentimentOpCode (sentiment : Sentiment) : String :=
  match sentiment with
  | Sentiment.positive => "OP_1"
  | Sentiment.negative => "OP_0"

/-- The script byte assembled for each opcode mnemonic returned by
`toSentimentOpCode`, as recorded in the source's own registry comments
(`0x51  OP_1 | OP_TRUE`, `0x00  OP_0 | OP_FALSE`). -/
def opNameByte (opName : String) : Option Nat :=
  if opName = "OP_1" then some 0x51
  else if opName = "OP_0" then some 0x00
  else none

/-- Number of UTF-16 code units a character occupies: 1 in the BMP, 2 for
supplementary-plane characters.  `profileId.length` in JS counts these. -/
def utf16Len (c : Char) : Nat := if c.toNat < 0x10000 then 1 else 2

/-- JS `String.prototype.length` of a string (UTF-16 code-unit count). -/
def jsLength (s : List Char) : Nat := (s.map utf16Len).sum

/-- UTF-8 encoding of a single character (1 to 4 bytes). -/
def utf8EncodeChar (c : Char) : List Nat :=
  let n := c.toNat
  if n < 0x80 then [n]
  else if n < 0x800 then
    [0xC0 + n / 0x40, 0x80 + n % 0x40]
  else if n < 0x10000 then
    [0xE0 + n / 0x1000, 0x80 + n / 0x40 % 0x40, 0x80 + n % 0x40]
  else
    [0xF0 + n / 0x40000, 0x80 + n / 0x1000 % 0x40,
     0x80 + n / 0x40 % 0x40, 0x80 + n % 0x40]

/-- UTF-8 encoding of a string. -/
def utf8EncodeList (s : List Char) : List Nat := (s.map utf8EncodeChar).flatten

/-- Number of bytes of the UTF-8 encoding of a string. -/
def utf8ByteLen (s : List Char) : Nat := (utf8EncodeList s).length

/-- The bytes `Buffer.write` emits into `space` remaining bytes: characters
are encoded one at a time and writing stops before the first character
whose encoding no longer fits ("partially encoded characters will not be
written"). -/
def takeFitting : List Char → Nat → List Nat
  | [], _ => []
  | c :: cs, space =>
    if (utf8EncodeChar c).length ≤ space then
      utf8EncodeChar c ++ takeFitting cs (space - (utf8EncodeChar c).length)
    else []

/-- Models `buf.write(s, offset, 'utf8')` on a buffer already validated to
have `offset ≤ buf.length`: overwrite bytes from `offset` with as many
whole encoded characters as fit, leaving the rest of the buffer intact. -/
def bufWrite (buf : List Nat) (offset : Nat) (s : List Char) : List Nat :=
  let bytes := takeFitting s (buf.length - offset)
  buf.take offset ++ bytes ++ buf.drop (offset + bytes.length)

/-- `toProfileIdBuf` from the source: allocate a zero-filled buffer of the
platform's `profileId.len` and `write` the profileId at offset
`len - profileId.length` (JS UTF-16 length).  When that offset is negative
— the profileId has more UTF-16 code units than the field width — Node's
`Buffer.write` throws `ERR_OUT_OF_RANGE`, modelled as `Except.error`. -/
def toProfileIdBuf (platform : Platform) (profileId : List Char) :
    Except String (List Nat) :=
  if (PLATFORMS platform).profileId.len < jsLength profileId then
    Except.error "RangeError ERR_OUT_OF_RANGE: offset is out of range"
  else
    Except.ok (bufWrite (List.replicate (PLATFORMS platform).profileId.len 0)
      ((PLATFORMS platform).profileId.len - jsLength profileId) profileId)

/-- Whether a byte is a UTF-8 continuation byte (0x80..0xBF). -/
def isCont (b : Nat) : Bool := 0x80 ≤ b && b ≤ 0xBF

/-- WHATWG UTF-8 decode with U+FFFD replacement (the behavior of
`new TextDecoder('utf-8').decode` without the `fatal` flag): well-formed
sequences decode to their scalar value; an invalid or truncated sequence
yields U+FFFD and decoding resumes at the offending byte. -/
def utf8Decode : List Nat → List Char
  | [] => []
  | b :: rest =>
    if b ≤ 0x7F then Char.ofNat b :: utf8Decode rest
    else if 0xC2 ≤ b ∧ b ≤ 0xDF then
      match rest with
      | [] => ['�']
      | b2 :: r =>
        if isCont b2 then
          Char.ofNat ((b % 0x20) * 0x40 + b2 % 0x40) :: utf8Decode r
        else '�' :: utf8Decode (b2 :: r)
    else if 0xE0 ≤ b ∧ b ≤ 0xEF then
      match rest with
      | [] => ['�']
      | b2 :: r =>
        if (if b = 0xE0 then 0xA0 else 0x80) ≤ b2 ∧
            b2 ≤ (if b = 0xED then 0x9F else 0xBF) then
          match r with
          | [] => ['�', '�']
          | b3 :: r2 =>
            if isCont b3 then
              Char.ofNat ((b % 0x10) * 0x1000 + (b2 % 0x40) * 0x40 + b3 % 0x40) ::
                utf8Decode r2
            else '�' :: utf8Decode (b3 :: r2)
        else '�' :: utf8Decode (b2 :: r)
    else if 0xF0 ≤ b ∧ b ≤ 0xF4 then
      match rest with
      | [] => ['�']
      | b2 :: r =>
        if (if b = 0xF0 then 0x90 else 0x80) ≤ b2 ∧
            b2 ≤ (if b = 0xF4 then 0x8F else 0xBF) then
          match r with
          | [] => ['�', '�']
          | b3 :: r2 =>
            if isCont b3 then
              match r2 with
              | [] => ['�', '�', '�']
              | b4 :: r3 =>
                if isCont b4 then
                  Char.ofNat ((b % 8) * 0x40000 + (b2 % 0x40) * 0x1000 +
                      (b3 % 0x40) * 0x40 + b4 % 0x40) :: utf8Decode r3
                else '�' :: utf8Decode (b4 :: r3)
            else '�' :: utf8Decode (b3 :: r2)
        else '�' :: utf8Decode (b2 :: r)
    else '�' :: utf8Decode rest

/-- `toProfileIdUTF8` from the source: filter out every 0x00 byte, then
decode the remaining bytes as UTF-8. -/
def toProfileIdUTF8 (profileIdBuf : List Nat) : List Char :=
  utf8Decode (profileIdBuf.filter fun b => b ≠ 0)

/-- The whitespace code points trimmed by JS `StringToBigInt` (WhiteSpace
and LineTerminator: TAB, LF, VT, FF, CR, SP, NBSP, LS, PS, ZWNBSP). -/
def isJsWhite (c : Char) : Bool :=
  c.toNat ∈ [0x9, 0xA, 0xB, 0xC, 0xD, 0x20, 0xA0, 0x2028, 0x2029, 0xFEFF]

/-- Strip leading and trailing JS whitespace. -/
def jsTrim (s : List Char) : List Char :=
  ((s.dropWhile isJsWhite).reverse.dropWhile isJsWhite).reverse

/-- Value of a digit character in the given base (hex letters either case),
`none` if the character is not a digit of that base. -/
def digitVal (base : Nat) (c : Char) : Option Nat :=
  let v :=
    if '0' ≤ c ∧ c ≤ '9' then some (c.toNat - 48)
    else if 'a' ≤ c ∧ c ≤ 'f' then some (c.toNat - 87)
    else if 'A' ≤ c ∧ c ≤ 'F' then some (c.toNat - 55)
    else none
  v.bind fun d => if d < base then some d else none

/-- Parse a nonempty all-digit string in the given base. -/
def parseRadixNat (base : Nat) (ds : List Char) : Option Nat :=
  if ds.isEmpty then none
  else ds.foldl (fun acc c => acc.bind fun a => (digitVal base c).map fun v => a * base + v)
    (some 0)

/-- JS `BigInt(string)` (the `StringToBigInt` operation): trim whitespace;
empty string is 0; `0x`/`0o`/`0b` prefixes select hex/octal/binary digits
(no sign allowed); otherwise an optional sign followed by decimal digits;
any other input throws a `SyntaxError` (modelled as `none`). -/
def jsBigInt (s : List Char) : Option Int :=
  match jsTrim s with
  | [] => some 0
  | c :: cs =>
    if c = '0' then
      match cs with
      | [] => some 0
      | d :: ds =>
        if d = 'x' ∨ d = 'X' then (parseRadixNat 16 ds).map Int.ofNat
        else if d = 'o' ∨ d = 'O' then (parseRadixNat 8 ds).map Int.ofNat
        else if d = 'b' ∨ d = 'B' then (parseRadixNat 2 ds).map Int.ofNat
        else (parseRadixNat 10 (c :: cs)).map Int.ofNat
    else if c = '+' then (parseRadixNat 10 cs).map Int.ofNat
    else if c = '-' then (parseRadixNat 10 cs).map fun n => -(n : Int)
    else (parseRadixNat 10 (c :: cs)).map Int.ofNat

/-- `BigInt.prototype.toString(16)`: minimal lowercase hex digits, with a
leading minus sign for negative values ("0" for zero). -/
def hexStr (n : Int) : List Char :=
  if n < 0 then '-' :: Nat.toDigits 16 n.natAbs else Nat.toDigits 16 n.toNat

/-- `Buffer.from(str, 'hex')`: decode complete pairs of hex digits from the
left and stop at the first invalid character or incomplete trailing pair
(Node truncates instead of throwing). -/
def bufferFromHex : List Char → List Nat
  | c1 :: c2 :: rest =>
    match digitVal 16 c1, digitVal 16 c2 with
    | some h, some l => (h * 16 + l) :: bufferFromHex rest
    | _, _ => []
  | _ => []

/-- Models `Number(postId).toString(16)` on the inputs relevant here:
decimal-integer strings in the float-exact range map to lowercase hex, the
empty string is 0, and other inputs are approximated by the NaN path
(yielding the characters of "NaN").  The `toPostIdBuf` branch using this is
unreachable: no platform in `PLATFORMS` has postId type 'Number'. -/
def jsNumberToStr16 (s : List Char) : List Char :=
  match jsTrim s with
  | [] => ['0']
  | t =>
    match parseRadixNat 10 t with
    | some n => if n < 2 ^ 53 then Nat.toDigits 16 n else ['N', 'a', 'N']
    | none => ['N', 'a', 'N']

/-- `toPostIdBuf` from the source: dispatch on the platform's postId type
tag.  For 'BigInt' (twitter): `Buffer.from(BigInt(postId).toString(16),
'hex')`, where a `BigInt()` parse failure is a thrown `SyntaxError`
(modelled as `Except.error`).  For 'Number':
`Buffer.from(Number(postId).toString(16), 'hex')`.  For 'String':
`Buffer.from(Buffer.from(postId).toString('hex'), 'hex')`, which is
exactly the UTF-8 bytes of the postId.  No branch consults the platform's
validating regex. -/
def toPostIdBuf (platform : Platform) (postId : List Char) :
    Except String (List Nat) :=
  match (PLATFORMS platform).postId.ptype with
  | PostIdType.bigIntTag =>
    match jsBigInt postId with
    | some n => Except.ok (bufferFromHex (hexStr n))
    | none => Except.error "SyntaxError: Cannot convert postId to a BigInt"
  | PostIdType.numberTag => Except.ok (bufferFromHex (jsNumberToStr16 postId))
  | PostIdType.stringTag => Except.ok (utf8EncodeList postId)

/-- Recursion worker for `specMinimalBigEndian`; the first argument is
fuel bounding the number of base-256 digits (any fuel ≥ the value works,
the caller passes the value itself). -/
def specMinimalBigEndianAux : Nat → Nat → List Nat
  | 0, _ => []
  | _ + 1, 0 => []
  | fuel + 1, n + 1 =>
    specMinimalBigEndianAux fuel ((n + 1) / 256) ++ [(n + 1) % 256]

/-- Modelled from the spec's words, for comparison with `toPostIdBuf`: the
"natural big-endian minimal encoding of the integer value" — most
significant byte first, no leading zero bytes, no fixed-width padding. -/
def specMinimalBigEndian (n : Nat) : List Nat := specMinimalBigEndianAux n n

/-- Modelled from the spec: the decoded `RankTransaction` record consumed
by the Ranking Aggregator (the aggregator itself is not under src/, which
only declares the `RankTransaction`/`RankTarget` shapes).  `targetId` is
the profileId or postId the vote is cast toward. -/
structure RankTx where
  txid : String
  sentiment : Sentiment
  platform : Platform
  targetId : String
  sats : Int
  timestamp : Int
deriving DecidableEq

/-- The `RankTarget` aggregate shape from the source: id, platform,
`ranking`, the ordered `ranks` list of contributing transactions, and the
two vote counters. -/
structure RankTarget where
  id : String
  platform : Platform
  ranking : Int
  ranks : List RankTx
  votesPositive : Nat
  votesNegative : Nat
deriving DecidableEq

/-- Number of transactions of the given sentiment in a ranks list. -/
def countSent (sent : Sentiment) (l : List RankTx) : Nat :=
  (l.filter fun tx => decide (tx.sentiment = sent)).length

/-- Modelled from the spec: the Unseen → Tracked transition — the first
transaction for a key creates the aggregate with the counters initialized
from its sentiment, `ranks = [tx]` and `ranking = votesPositive −
votesNegative`. -/
def newTarget (tx : RankTx) : RankTarget :=
  { id := tx.targetId
    platform := tx.platform
    ranking := (if tx.sentiment = Sentiment.positive then 1 else 0 : Int) -
      (if tx.sentiment = Sentiment.negative then 1 else 0 : Int)
    ranks := [tx]
    votesPositive := if tx.sentiment = Sentiment.positive then 1 else 0
    votesNegative := if tx.sentiment = Sentiment.negative then 1 else 0 }

/-- Modelled from the spec: a subsequent transaction for a Tracked key
appends to `ranks`, increments the matching vote counter and recomputes
`ranking` as `votesPositive − votesNegative`. -/
def addTxToTarget (t : RankTarget) (tx : RankTx) : RankTarget :=
  { t with
    ranks := t.ranks ++ [tx]
    votesPositive :=
      t.votesPositive + (if tx.sentiment = Sentiment.positive then 1 else 0)
    votesNegative :=
      t.votesNegative + (if tx.sentiment = Sentiment.negative then 1 else 0)
    ranking :=
      ((t.votesPositive + (if tx.sentiment = Sentiment.positive then 1 else 0) : Nat) : Int) -
      ((t.votesNegative + (if tx.sentiment = Sentiment.negative then 1 else 0) : Nat) : Int) }

/-- Modelled from the spec: ingest one transaction into the keyed state —
find the aggregate with the transaction's `(platform, id)` key; create it
if unseen; re-ingesting a txid already in `ranks` is a no-op. -/
def ingestTx : List RankTarget → RankTx → List RankTarget
  | [], tx => [newTarget tx]
  | t :: ts, tx =>
    if t.platform = tx.platform ∧ t.id = tx.targetId then
      (if tx.txid ∈ t.ranks.map RankTx.txid then t else addTxToTarget t tx) :: ts
    else t :: ingestTx ts tx

/-- Modelled from the spec: reorg rollback on one aggregate — remove each
evicted transaction from `ranks`, decrement the corresponding vote counter
and recompute `ranking`. -/
def rollbackTarget (evicted : List String) (t : RankTarget) : RankTarget :=
  { t with
    ranks := t.ranks.filter fun tx => !decide (tx.txid ∈ evicted)
    votesPositive := t.votesPositive -
      countSent Sentiment.positive (t.ranks.filter fun tx => decide (tx.txid ∈ evicted))
    votesNegative := t.votesNegative -
      countSent Sentiment.negative (t.ranks.filter fun tx => decide (tx.txid ∈ evicted))
    ranking :=
      ((t.votesPositive -
        countSent Sentiment.positive (t.ranks.filter fun tx => decide (tx.txid ∈ evicted)) : Nat) : Int) -
      ((t.votesNegative -
        countSent Sentiment.negative (t.ranks.filter fun tx => decide (tx.txid ∈ evicted)) : Nat) : Int) }

/-- Modelled from the spec: reorg rollback over the whole state; a target
whose `ranks` becomes empty reverts to Unseen (is removed from the map). -/
def rollbackTxids (st : List RankTarget) (evicted : List String) : List RankTarget :=
  (st.map (rollbackTarget evicted)).filter fun t => !t.ranks.isEmpty

/-- An aggregator operation: ingest one decoded transaction, or roll back
a set of evicted txids. -/
inductive AggOp
  | ingest (tx : RankTx)
  | rollback (evicted : List String)

/-- Apply one aggregator operation. -/
def applyAggOp (st : List RankTarget) : AggOp → List RankTarget
  | AggOp.ingest tx => ingestTx st tx
  | AggOp.rollback evicted => rollbackTxids st evicted

/-- Run a sequence of aggregator operations from the empty state. -/
def runAgg (ops : List AggOp) : List RankTarget := ops.foldl applyAggOp []

/-- The counter coherence maintained by the aggregator: each vote counter
equals the count of transactions of that sentiment in `ranks`. -/
def TargetCounts (t : RankTarget) : Prop :=
  t.votesPositive = countSent Sentiment.positive t.ranks ∧
  t.votesNegative = countSent Sentiment.negative t.ranks

/-- C8: the static required-chunk table encodes exactly the grammar's fixed
positions — lokad at offset 2, length 4, code 0x52414E4B ↦ "RANK";
sentiment at offset 6, length 1 (0x51 positive, 0x00 negative); platform
at offset 8, length 1 (0x01 twitter); profileId at offset 10 with
platform-defined length (16 bytes for twitter); and
`RANK_SCRIPT_REQUIRED_LENGTH = 10`. -/
theorem c8_required_chunk_table :
    RANK_SCRIPT_CHUNKS_REQUIRED.lokad.offset = some 2 ∧
    RANK_SCRIPT_CHUNKS_REQUIRED.lokad.len = some 4 ∧
    SCRIPT_CHUNK_LOKAD.lookup 0x52414E4B = some "RANK" ∧
    RANK_SCRIPT_CHUNKS_REQUIRED.sentiment.offset = some 6 ∧
    RANK_SCRIPT_CHUNKS_REQUIRED.sentiment.len = some 1 ∧
    SCRIPT_CHUNK_SENTIMENT.lookup 0x51 = some Sentiment.positive ∧
    SCRIPT_CHUNK_SENTIMENT.lookup 0x00 = some Sentiment.negative ∧
    RANK_SCRIPT_CHUNKS_REQUIRED.platform.offset = some 8 ∧
    RANK_SCRIPT_CHUNKS_REQUIRED.platform.len = some 1 ∧
    SCRIPT_CHUNK_PLATFORM.lookup 0x01 = some Platform.twitter ∧
    RANK_SCRIPT_CHUNKS_REQUIRED.profileId.offset = some 10 ∧
    RANK_SCRIPT_CHUNKS_REQUIRED.profileId.len = none ∧
    (PLATFORMS Platform.twitter).profileId.len = 16 ∧
    RANK_SCRIPT_REQUIRED_LENGTH = 10 := by
  refine ⟨rfl, rfl, rfl, rfl, rfl, rfl, rfl, rfl, rfl, rfl, rfl, rfl, rfl, rfl⟩

/-- C6: for every platform label registered in the platform registry,
`toPlatformBuf` returns the unique 1-byte registry code for the label and
`toPlatformUTF8` maps that byte back to the same label. -/
theorem c6_platform_round_trip :
    ∀ p : Platform,
      (toPlatformBuf p).bind toPlatformUTF8 = some p ∧
      (SCRIPT_CHUNK_PLATFORM.filter fun e => decide (e.2 = p)).length = 1 := by
  intro p
  cases p
  exact ⟨rfl, rfl⟩

set_option maxRecDepth 4096 in
/-- C7: for every 1-byte buffer whose byte value has no entry in the
corresponding registry, `toPlatformUTF8` and `toSentimentUTF8` each return
an absent result (`none`), not a crash. -/
theorem c7_unknown_byte_absent :
    ∀ b : Fin 256,
      (b.val ∉ SCRIPT_CHUNK_PLATFORM.map Prod.fst → toPlatformUTF8 [b.val] = none) ∧
      (b.val ∉ SCRIPT_CHUNK_SENTIMENT.map Prod.fst → toSentimentUTF8 [b.val] = none) := by
  decide

/-- Witness for C7: byte 0x42 is in neither registry and both decoders
return `none` on it. -/
theorem c7_witness :
    toPlatformUTF8 [0x42] = none ∧ toSentimentUTF8 [0x42] = none :=
  ⟨(c7_unknown_byte_absent ⟨0x42, by decide⟩).1 (by decide),
   (c7_unknown_byte_absent ⟨0x42, by decide⟩).2 (by decide)⟩

/-- Counterexample to C4 as stated: encoding a sentiment does not yield
the registry's 1-byte code — `toSentimentOpCode` returns the 4-character
opcode mnemonic string "OP_1", not a byte. -/
theorem c4_counterexample :
    toSentimentOpCode Sentiment.positive = "OP_1" ∧
    ("OP_1" : String).length ≠ 1 := by
  exact ⟨rfl, by decide⟩

/-- C4 (amended): `toSentimentOpCode` returns the opcode mnemonic ('OP_1'
for positive, 'OP_0' for negative); the script byte that mnemonic
assembles to is the registry's 1-byte code (0x51 resp. 0x00), and
`toSentimentUTF8` decodes that byte back to the original sentiment. -/
theorem c4_sentiment_round_trip :
    ∀ s : Sentiment,
      (opNameByte (toSentimentOpCode s)).bind (fun b => toSentimentUTF8 [b]) =
        some s := by
  intro s
  cases s <;> rfl

/-- C2 is a code bug: `toPostIdBuf` never consults the platform's
validating regex.  The empty postId fails twitter's `/^[0-9]+$/`, yet
`BigInt("")` evaluates to 0, whose hex string "0" is an odd-length hex
literal that `Buffer.from(_, 'hex')` truncates to the empty buffer — so
the call returns a buffer instead of failing with an encoding error. -/
theorem c2_regex_not_enforced :
    (PLATFORMS Platform.twitter).postId.regexMatch [] = false ∧
    jsBigInt [] = some 0 ∧
    toPostIdBuf Platform.twitter [] = Except.ok [] := by
  exact ⟨rfl, rfl, rfl⟩

/-- C3 is a code bug: for postId "256" (which passes twitter's regex),
`BigInt("256").toString(16)` is the odd-length string "100", and
`Buffer.from("100", 'hex')` keeps only the complete pair "10" — the code
returns [0x10], dropping the low nibble, instead of the minimal big-endian
encoding [0x01, 0x00] of the value 256. -/
theorem c3_odd_hex_truncates :
    (PLATFORMS Platform.twitter).postId.regexMatch ['2', '5', '6'] = true ∧
    jsBigInt ['2', '5', '6'] = some 256 ∧
    hexStr 256 = ['1', '0', '0'] ∧
    toPostIdBuf Platform.twitter ['2', '5', '6'] = Except.ok [0x10] ∧
    specMinimalBigEndian 256 = [0x01, 0x00] ∧
    toPostIdBuf Platform.twitter ['2', '5', '6'] ≠
      Except.ok (specMinimalBigEndian 256) := by
  refine ⟨rfl, by decide, by decide, rfl, by decide, ?_⟩
  intro h
  exact absurd (Except.ok.inj h) (by decide)

/-- Counterexample to C1 as stated: the profileId of nine 'é' characters
encodes to 18 UTF-8 bytes — longer than twitter's 16-byte field — yet
`toProfileIdBuf` does not fail: it returns a buffer holding a silently
truncated profileId (only four of the nine characters were written,
because the write offset 16 − 9 leaves just 9 bytes of room). -/
theorem c1_counterexample :
    (PLATFORMS Platform.twitter).profileId.len = 16 ∧
    16 < utf8ByteLen (List.replicate 9 'é') ∧
    toProfileIdBuf Platform.twitter (List.replicate 9 'é') =
      Except.ok [0, 0, 0, 0, 0, 0, 0, 0xC3, 0xA9, 0xC3, 0xA9, 0xC3, 0xA9, 0xC3, 0xA9, 0] := by
  refine ⟨rfl, by decide, rfl⟩

/-- C1 (amended): a profileId with more UTF-16 code units than the
platform's configured width (e.g. 17 ASCII characters against twitter's
16-byte field) makes `toProfileIdBuf` fail — `Buffer.write` throws
`ERR_OUT_OF_RANGE` on the negative offset — and no buffer is returned.
(A profileId within the UTF-16 length bound whose UTF-8 encoding exceeds
the width is instead silently truncated, per the counterexample.) -/
theorem c1_overlong_utf16_throws :
    ∀ (p : Platform) (s : List Char),
      (PLATFORMS p).profileId.len < jsLength s →
      toProfileIdBuf p s =
        Except.error "RangeError ERR_OUT_OF_RANGE: offset is out of range" := by
  intro p s h
  unfold toProfileIdBuf
  rw [if_pos h]

/-- Witness for C1 (amended): 17 ASCII characters against twitter's
16-byte field fail with the out-of-range error. -/
theorem c1_witness :
    (PLATFORMS Platform.twitter).profileId.len < jsLength (List.replicate 17 'a') ∧
    toProfileIdBuf Platform.twitter (List.replicate 17 'a') =
      Except.error "RangeError ERR_OUT_OF_RANGE: offset is out of range" :=
  ⟨by decide,
   c1_overlong_utf16_throws Platform.twitter (List.replicate 17 'a') (by decide)⟩

/-- Counterexample to C5 as stated: the profileId "é" has no 0x00 byte and
its 2-byte UTF-8 encoding fits twitter's 16-byte width, yet the round trip
loses it entirely: the write offset 16 − 1 leaves one byte of room, too
small for the character, so nothing is written and decoding the all-zero
buffer yields the empty string, not "é". -/
theorem c5_counterexample :
    utf8ByteLen ['é'] ≤ (PLATFORMS Platform.twitter).profileId.len ∧
    (0 ∉ utf8EncodeList ['é']) ∧
    toProfileIdBuf Platform.twitter ['é'] = Except.ok (List.replicate 16 0) ∧
    toProfileIdUTF8 (List.replicate 16 0) = [] ∧
    ([] : List Char) ≠ ['é'] := by
  refine ⟨by decide, by decide, rfl, rfl, by decide⟩

/-- `takeFitting` never produces more bytes than the available space. -/
theorem takeFitting_length_le (s : List Char) :
    ∀ n, (takeFitting s n).length ≤ n := by
  induction s with
  | nil => intro n; simp [takeFitting]
  | cons c cs ih =>
    intro n
    simp only [takeFitting]
    split
    · rename_i h
      rw [List.length_append]
      have h2 := ih (n - (utf8EncodeChar c).length)
      omega
    · simp

/-- `bufWrite` preserves the buffer's length whenever the offset is in
bounds. -/
theorem bufWrite_length (buf : List Nat) (offset : Nat) (s : List Char)
    (h : offset ≤ buf.length) : (bufWrite buf offset s).length = buf.length := by
  unfold bufWrite
  have h2 := takeFitting_length_le s (buf.length - offset)
  simp only [List.length_append, List.length_take, List.length_drop]
  omega

/-- C10: whenever `toProfileIdBuf` returns normally, the returned buffer's
length is exactly the platform's configured `profileId.len` (16 for
twitter), regardless of the profileId's content or encoded byte length. -/
theorem c10_ok_buffer_width :
    ∀ (p : Platform) (s : List Char) (buf : List Nat),
      toProfileIdBuf p s = Except.ok buf →
      buf.length = (PLATFORMS p).profileId.len := by
  intro p s buf h
  unfold toProfileIdBuf at h
  split at h
  · exact absurd h (by simp)
  · injection h with h2
    rw [← h2, bufWrite_length _ _ _ (by simp)]
    simp

/-- Witness for C10: encoding "alice" for twitter yields the 16-byte
buffer of eleven zero bytes followed by the five ASCII bytes. -/
theorem c10_witness :
    (List.replicate 11 0 ++ [97, 108, 105, 99, 101] : List Nat).length =
      (PLATFORMS Platform.twitter).profileId.len :=
  c10_ok_buffer_width Platform.twitter ['a', 'l', 'i', 'c', 'e'] _ rfl

/-- `jsLength` unfolds over cons. -/
theorem jsLength_cons (c : Char) (cs : List Char) :
    jsLength (c :: cs) = utf16Len c + jsLength cs := by
  simp [jsLength]

/-- For strings of BMP characters the JS length is the character count. -/
theorem jsLength_ascii (s : List Char) (h : ∀ c ∈ s, c.toNat ≤ 0x7F) :
    jsLength s = s.length := by
  induction s with
  | nil => rfl
  | cons c cs ih =>
    have hc := h c (List.mem_cons_self c cs)
    have hcs : ∀ x ∈ cs, x.toNat ≤ 0x7F := fun x hx => h x (List.mem_cons_of_mem c hx)
    rw [jsLength_cons, ih hcs, List.length_cons]
    unfold utf16Len
    rw [if_pos (by omega)]
    omega

/-- An ASCII character encodes to the single byte of its code point. -/
theorem utf8EncodeChar_ascii (c : Char) (h : c.toNat ≤ 0x7F) :
    utf8EncodeChar c = [c.toNat] := by
  simp only [utf8EncodeChar]
  rw [if_pos (by omega)]

/-- Writing an all-ASCII string into enough space writes every byte. -/
theorem takeFitting_ascii (s : List Char) (h : ∀ c ∈ s, c.toNat ≤ 0x7F) :
    ∀ n, s.length ≤ n → takeFitting s n = s.map Char.toNat := by
  induction s with
  | nil => intro n _; rfl
  | cons c cs ih =>
    intro n hn
    have hc := h c (List.mem_cons_self c cs)
    have hcs : ∀ x ∈ cs, x.toNat ≤ 0x7F := fun x hx => h x (List.mem_cons_of_mem c hx)
    rw [List.length_cons] at hn
    simp only [takeFitting, utf8EncodeChar_ascii c hc, List.length_cons,
      List.length_nil]
    rw [if_pos (by omega), ih hcs (n - (0 + 1)) (by omega)]
    rfl

/-- The ASCII fast path of the decoder: a byte at most 0x7F decodes to its
own code point and decoding continues with the rest. -/
theorem utf8Decode_cons_le (b : Nat) (rest : List Nat) (h : b ≤ 0x7F) :
    utf8Decode (b :: rest) = Char.ofNat b :: utf8Decode rest := by
  rw [utf8Decode.eq_def]
  simp only [h, if_true, ite_true]

/-- Decoding the single-byte encodings of ASCII characters restores the
original characters. -/
theorem utf8Decode_ascii (s : List Char) (h : ∀ c ∈ s, c.toNat ≤ 0x7F) :
    utf8Decode (s.map Char.toNat) = s := by
  induction s with
  | nil => rfl
  | cons c cs ih =>
    have hc := h c (List.mem_cons_self c cs)
    have hcs : ∀ x ∈ cs, x.toNat ≤ 0x7F := fun x hx => h x (List.mem_cons_of_mem c hx)
    rw [List.map_cons, utf8Decode_cons_le _ _ hc, Char.ofNat_toNat, ih hcs]

/-- Filtering the zero bytes out of an all-zero buffer leaves nothing. -/
theorem filter_ne_zero_replicate (k : Nat) :
    (List.replicate k (0 : Nat)).filter (fun b => b ≠ 0) = [] := by
  induction k with
  | zero => rfl
  | succ k ih => simp [List.replicate_succ, List.filter_cons, ih]

/-- Filtering the zero bytes out of a list without zero bytes is the
identity. -/
theorem filter_ne_zero_of_pos (l : List Nat) (h : ∀ b ∈ l, b ≠ 0) :
    l.filter (fun b => b ≠ 0) = l :=
  List.filter_eq_self.mpr fun a ha => by simpa using h a ha

/-- C5 (amended): for every supported platform and every profileId of
non-null ASCII characters whose length is at most the platform's
configured profileId width, `toProfileIdUTF8 ∘ toProfileIdBuf` returns the
profileId unchanged — the round trip loses only the zero padding.  (For
non-ASCII profileIds the round trip can lose characters even when the
encoding fits the width, per the counterexample.) -/
theorem c5_ascii_round_trip :
    ∀ (p : Platform) (s : List Char),
      (∀ c ∈ s, 0 < c.toNat ∧ c.toNat ≤ 0x7F) →
      s.length ≤ (PLATFORMS p).profileId.len →
      ∃ buf, toProfileIdBuf p s = Except.ok buf ∧ toProfileIdUTF8 buf = s := by
  intro p s hchars hlen
  cases p
  have hascii : ∀ c ∈ s, c.toNat ≤ 0x7F := fun c hc => (hchars c hc).2
  have hjs : jsLength s = s.length := jsLength_ascii s hascii
  have hlen16 : s.length ≤ 16 := hlen
  have hnot : ¬ ((PLATFORMS Platform.twitter).profileId.len < jsLength s) := by
    show ¬ (16 < jsLength s)
    omega
  refine ⟨bufWrite (List.replicate 16 0) (16 - jsLength s) s, ?_, ?_⟩
  · unfold toProfileIdBuf
    rw [if_neg hnot]
    rfl
  · have hlenrep : (List.replicate 16 (0 : Nat)).length = 16 :=
      List.length_replicate 16 0
    have harg : (List.replicate 16 (0 : Nat)).length - (16 - jsLength s) =
        s.length := by
      rw [hlenrep]; omega
    simp only [bufWrite, harg, takeFitting_ascii s hascii s.length le_rfl]
    have hmin : min (16 - jsLength s) 16 = 16 - jsLength s :=
      Nat.min_eq_left (Nat.sub_le _ _)
    have hdrop : 16 - jsLength s + (s.map Char.toNat).length = 16 := by
      rw [List.length_map]; omega
    have hdropnil : List.drop 16 (List.replicate 16 (0 : Nat)) = [] := rfl
    rw [List.take_replicate, hmin, hdrop, hdropnil, List.append_nil]
    have hpos : ∀ b ∈ s.map Char.toNat, b ≠ 0 := by
      intro b hb
      obtain ⟨c, hc, rfl⟩ := List.mem_map.mp hb
      have := (hchars c hc).1
      omega
    unfold toProfileIdUTF8
    rw [List.filter_append, filter_ne_zero_replicate, List.nil_append,
      filter_ne_zero_of_pos _ hpos, utf8Decode_ascii s hascii]

/-- Witness for C5 (amended): the profileId "bob" round-trips through the
twitter encoding unchanged. -/
theorem c5_witness :
    (∀ c ∈ (['b', 'o', 'b'] : List Char), 0 < c.toNat ∧ c.toNat ≤ 0x7F) ∧
    (['b', 'o', 'b'] : List Char).length ≤
      (PLATFORMS Platform.twitter).profileId.len ∧
    ∃ buf, toProfileIdBuf Platform.twitter ['b', 'o', 'b'] = Except.ok buf ∧
      toProfileIdUTF8 buf = ['b', 'o', 'b'] :=
  ⟨by decide, by decide,
   c5_ascii_round_trip Platform.twitter ['b', 'o', 'b'] (by decide) (by decide)⟩

/-- `countSent` over cons. -/
theorem countSent_cons (sent : Sentiment) (tx : RankTx) (l : List RankTx) :
    countSent sent (tx :: l) =
      (if tx.sentiment = sent then 1 else 0) + countSent sent l := by
  simp only [countSent, List.filter_cons]
  by_cases h : tx.sentiment = sent
  · simp [h]
    omega
  · simp [h]

/-- `countSent` over append. -/
theorem countSent_append (sent : Sentiment) (l1 l2 : List RankTx) :
    countSent sent (l1 ++ l2) = countSent sent l1 + countSent sent l2 := by
  simp [countSent, List.filter_append]

/-- Every transaction is positive or negative, so the two sentiment counts
partition the list. -/
theorem countSent_pos_add_neg (l : List RankTx) :
    countSent Sentiment.positive l + countSent Sentiment.negative l =
      l.length := by
  induction l with
  | nil => rfl
  | cons tx l ih =>
    rw [countSent_cons, countSent_cons, List.length_cons]
    cases htx : tx.sentiment <;> simp [htx] <;> omega

/-- The sentiment counts of the kept and dropped parts of a filter add up
to the count of the whole list. -/
theorem countSent_filter_split (sent : Sentiment) (l : List RankTx)
    (p : RankTx → Bool) :
    countSent sent (l.filter p) + countSent sent (l.filter fun tx => !p tx) =
      countSent sent l := by
  induction l with
  | nil => rfl
  | cons tx l ih =>
    cases hp : p tx <;>
      simp [List.filter_cons, hp, countSent_cons] <;>
      omega

/-- A fresh aggregate's counters match its one-element ranks list. -/
theorem targetCounts_newTarget (tx : RankTx) : TargetCounts (newTarget tx) := by
  refine ⟨?_, ?_⟩ <;> cases htx : tx.sentiment <;>
    simp [newTarget, countSent, List.filter_cons, htx]

/-- Appending a transaction and incrementing the matching counter keeps
the counters coherent. -/
theorem targetCounts_addTx (t : RankTarget) (tx : RankTx)
    (h : TargetCounts t) : TargetCounts (addTxToTarget t tx) := by
  obtain ⟨h1, h2⟩ := h
  constructor
  · show t.votesPositive + _ = countSent Sentiment.positive (t.ranks ++ [tx])
    rw [countSent_append, h1, countSent_cons]
    simp [countSent]
  · show t.votesNegative + _ = countSent Sentiment.negative (t.ranks ++ [tx])
    rw [countSent_append, h2, countSent_cons]
    simp [countSent]

/-- Rollback — filtering out evicted transactions while decrementing each
counter by the evicted count of its sentiment — keeps the counters
coherent. -/
theorem targetCounts_rollback (evicted : List String) (t : RankTarget)
    (h : TargetCounts t) : TargetCounts (rollbackTarget evicted t) := by
  obtain ⟨h1, h2⟩ := h
  have hp := countSent_filter_split Sentiment.positive t.ranks
    (fun tx => decide (tx.txid ∈ evicted))
  have hn := countSent_filter_split Sentiment.negative t.ranks
    (fun tx => decide (tx.txid ∈ evicted))
  constructor
  · show t.votesPositive -
      countSent Sentiment.positive (t.ranks.filter fun tx => decide (tx.txid ∈ evicted)) =
      countSent Sentiment.positive (t.ranks.filter fun tx => !decide (tx.txid ∈ evicted))
    omega
  · show t.votesNegative -
      countSent Sentiment.negative (t.ranks.filter fun tx => decide (tx.txid ∈ evicted)) =
      countSent Sentiment.negative (t.ranks.filter fun tx => !decide (tx.txid ∈ evicted))
    omega

/-- Ingestion preserves counter coherence across the whole state. -/
theorem stateInv_ingest (st : List RankTarget) (tx : RankTx)
    (h : ∀ t ∈ st, TargetCounts t) :
    ∀ t ∈ ingestTx st tx, TargetCounts t := by
  induction st with
  | nil =>
    intro t ht
    simp only [ingestTx, List.mem_singleton] at ht
    subst ht
    exact targetCounts_newTarget tx
  | cons u us ih =>
    intro t ht
    simp only [ingestTx] at ht
    split_ifs at ht with hkey hdup
    · rcases List.mem_cons.mp ht with h1 | h2
      · subst h1
        exact h _ (List.mem_cons_self _ _)
      · exact h t (List.mem_cons_of_mem _ h2)
    · rcases List.mem_cons.mp ht with h1 | h2
      · subst h1
        exact targetCounts_addTx u tx (h u (List.mem_cons_self u us))
      · exact h t (List.mem_cons_of_mem u h2)
    · rcases List.mem_cons.mp ht with h1 | h2
      · subst h1
        exact h t (List.mem_cons_self t us)
      · exact ih (fun t' ht' => h t' (List.mem_cons_of_mem u ht')) t h2

/-- Rollback preserves counter coherence across the whole state. -/
theorem stateInv_rollback (st : List RankTarget) (evicted : List String)
    (h : ∀ t ∈ st, TargetCounts t) :
    ∀ t ∈ rollbackTxids st evicted, TargetCounts t := by
  intro t ht
  unfold rollbackTxids at ht
  have ht2 := List.mem_of_mem_filter ht
  obtain ⟨u, hu, rfl⟩ := List.mem_map.mp ht2
  exact targetCounts_rollback evicted u (h u hu)

/-- One aggregator operation preserves counter coherence. -/
theorem stateInv_apply (st : List RankTarget) (op : AggOp)
    (h : ∀ t ∈ st, TargetCounts t) :
    ∀ t ∈ applyAggOp st op, TargetCounts t := by
  cases op with
  | ingest tx => exact stateInv_ingest st tx h
  | rollback evicted => exact stateInv_rollback st evicted h

/-- Counter coherence is preserved by any sequence of operations. -/
theorem stateInv_foldl (ops : List AggOp) :
    ∀ st : List RankTarget, (∀ t ∈ st, TargetCounts t) →
      ∀ t ∈ List.foldl applyAggOp st ops, TargetCounts t := by
  induction ops with
  | nil => intro st h; simpa using h
  | cons op ops ih =>
    intro st h
    rw [List.foldl_cons]
    exact ih _ (stateInv_apply st op h)

/-- C9: for every aggregate maintained by the aggregator, after any
sequence of transaction ingestions and reorg rollbacks (from the empty
state), `votesPositive + votesNegative` equals the length of its `ranks`
list. -/
theorem c9_vote_sum_invariant :
    ∀ (ops : List AggOp) (t : RankTarget), t ∈ runAgg ops →
      t.votesPositive + t.votesNegative = t.ranks.length := by
  intro ops t ht
  unfold runAgg at ht
  obtain ⟨h1, h2⟩ := stateInv_foldl ops [] (by intro t' ht'; cases ht') t ht
  rw [h1, h2, countSent_pos_add_neg]

/-- Witness for C9: after ingesting one positive transaction the single
aggregate has 1 + 0 votes and a one-element ranks list. -/
theorem c9_witness :
    (newTarget ⟨"t1", Sentiment.positive, Platform.twitter, "abc", 1000000, 0⟩).votesPositive +
      (newTarget ⟨"t1", Sentiment.positive, Platform.twitter, "abc", 1000000, 0⟩).votesNegative =
      (newTarget ⟨"t1", Sentiment.positive, Platform.twitter, "abc", 1000000, 0⟩).ranks.length :=
  c9_vote_sum_invariant
    [AggOp.ingest ⟨"t1", Sentiment.positive, Platform.twitter, "abc", 1000000, 0⟩]
    (newTarget ⟨"t1", Sentiment.positive, Platform.twitter, "abc", 1000000, 0⟩)
    (List.mem_singleton.mpr rfl)
